import Mathlib

/-!
Shallow embedding of `src/analyzer/app.py`: a single Flask handler
`analyze` that chunks the request `content` into 1000-character slices,
summarizes each chunk through an external summarization pipeline, joins
the summaries with a single ASCII space, and returns word/line counts of
the original content.  Strings are modelled as `List Char`; the external
summarizer is an arbitrary function parameter that may fail (`Except`).
-/

namespace Analyzer

/-- Python whitespace predicate used by `str.strip()` and `str.split()`
(the six ASCII whitespace characters). -/
def pyIsSpace (c : Char) : Bool :=
  c = ' ' || c = '\t' || c = '\n' || c = '\r' || c = '\x0b' || c = '\x0c'

/-- Python `str.strip()`: drop leading and trailing whitespace. -/
def pyStrip (l : List Char) : List Char :=
  ((l.dropWhile pyIsSpace).reverse.dropWhile pyIsSpace).reverse

/-- Worker for Python `str.split()` with no separator: accumulate the
current token in `acc` (reversed) and emit it at each whitespace run. -/
def wordsAux : List Char → List Char → List (List Char)
  | [], acc => if acc = [] then [] else [acc.reverse]
  | c :: cs, acc =>
    if pyIsSpace c then
      if acc = [] then wordsAux cs [] else acc.reverse :: wordsAux cs []
    else wordsAux cs (c :: acc)

/-- Python `content.split()`: maximal whitespace-delimited non-empty
tokens, in order. -/
def pySplit (l : List Char) : List (List Char) :=
  wordsAux l []

/-- Python `content.split('\n')`: segments between newline characters,
keeping empty segments. -/
def pySplitNl : List Char → List (List Char)
  | [] => [[]]
  | c :: cs =>
    let rest := pySplitNl cs
    if c = '\n' then [] :: rest
    else (c :: rest.headD []) :: rest.tail

/-- Python `content[i:i+1000]`: slice of length at most 1000 starting at
index `i`. -/
def slice1000 (l : List Char) (i : Nat) : List Char :=
  (l.drop i).take 1000

/-- The chunking comprehension of `app.py` line 21:
`[content[i:i+1000] for i in range(0, len(content), 1000)]`,
with `range(0, n, 1000)` embedded as the multiples of 1000 below `n`. -/
def chunked (l : List Char) : List (List Char) :=
  (((List.range l.length).filter (fun i => i % 1000 = 0)).map
    (fun i => slice1000 l i))

/-- The external summarization pipeline: takes a chunk, `max_length`,
`min_length` and `do_sample`, and either returns summary text or raises
(modelled as `Except.error` carrying `str(e)`). -/
def Summarizer : Type :=
  List Char → Nat → Nat → Bool → Except String (List Char)

/-- The list comprehension of `app.py` line 22: summarize the chunks in
order with `max_length=130, min_length=30, do_sample=False`; the first
exception aborts the whole comprehension. -/
def summarizeChunks (summ : Summarizer) : List (List Char) → Except String (List (List Char))
  | [] => Except.ok []
  | c :: cs =>
    match summ c 130 30 false with
    | Except.error e => Except.error e
    | Except.ok s =>
      match summarizeChunks summ cs with
      | Except.error e => Except.error e
      | Except.ok ss => Except.ok (s :: ss)

/-- Body of the 200 response of `app.py` lines 25-29. -/
structure OkBody where
  summary : List Char
  word_count : Nat
  line_count : Nat
deriving DecidableEq

/-- The three possible HTTP responses of the handler. -/
inductive Response
  | badRequest (error : String)
  | ok (body : OkBody)
  | serverError (error : String)
deriving DecidableEq

/-- HTTP status code attached to each response shape. -/
def Response.status : Response → Nat
  | Response.badRequest _ => 400
  | Response.ok _ => 200
  | Response.serverError _ => 500

/-- The handler body of `app.py` lines 12-32, for a string `content`
(after `data.get('content', '')` has produced a string). -/
def analyze (summ : Summarizer) (content : List Char) : Response :=
  if pyStrip content = [] then
    Response.badRequest "Empty content"
  else
    match summarizeChunks summ (chunked content) with
    | Except.error e => Response.serverError e
    | Except.ok summaries =>
      Response.ok
        { summary := List.intercalate [' '] summaries,
          word_count := (pySplit content).length,
          line_count := (pySplitNl content).length }

/-- A JSON value, as far as the `content` field is concerned. -/
inductive JVal
  | jstr (s : List Char)
  | jnum (n : Int)
  | jbool (b : Bool)
  | jnull
  | jarr (n : Nat)

/-- Outcome of a request: either one of the handler's responses, or an
exception raised outside the `try` block (left unhandled by the handler,
so Flask produces its generic error page, not one of the two JSON error
bodies). -/
inductive Outcome
  | resp (r : Response)
  | unhandled (msg : String)

/-- The full request path: `data.get('content', '')` yields `''` when the
field is absent; `content.strip()` on line 16 is only defined on strings,
so any non-string value raises `AttributeError` before the `try` block. -/
def analyzeRequest (summ : Summarizer) (contentField : Option JVal) : Outcome :=
  match contentField.getD (JVal.jstr []) with
  | JVal.jstr s => Outcome.resp (analyze summ s)
  | _ => Outcome.unhandled "AttributeError"

/-- A sequence of requests served by the (stateless) handler. -/
def serve (summ : Summarizer) (reqs : List (List Char)) : List Response :=
  reqs.map (analyze summ)

/-- Modelled from the spec: the number of maximal whitespace-delimited
non-empty tokens, counted directly as the number of positions that start
a maximal non-whitespace run (`prevSpace` records whether the previous
position was whitespace or the start of the string). -/
def countRuns : List Char → Bool → Nat
  | [], _ => 0
  | c :: cs, prevSpace =>
    (if prevSpace && !(pyIsSpace c) then 1 else 0) + countRuns cs (pyIsSpace c)

/-- Modelled from the spec: "the number of maximal whitespace-delimited
non-empty tokens" in a string. -/
def maximalTokenCount (l : List Char) : Nat :=
  countRuns l true

/-- A summarizer that echoes its chunk (always succeeds). -/
def okSumm : Summarizer :=
  fun c _ _ _ => Except.ok c

/-- A summarizer that returns the empty string (succeeds with empty
output). -/
def emptySumm : Summarizer :=
  fun _ _ _ _ => Except.ok []

/-- A summarizer that always raises. -/
def failSumm : Summarizer :=
  fun _ _ _ _ => Except.error "boom"

/-! ### Chunking lemmas -/

/-- The multiples of 1000 below `L` are the image of `0, …, ⌈L/1000⌉ - 1`
under multiplication by 1000. -/
theorem rangeStep_eq (L : Nat) :
    (List.range L).filter (fun i => i % 1000 = 0) =
      (List.range ((L + 999) / 1000)).map (fun k => 1000 * k) := by
  induction L with
  | zero => rfl
  | succ n ih =>
    rw [List.range_succ, List.filter_append, ih]
    by_cases h : n % 1000 = 0
    · have h1 : (n + 1 + 999) / 1000 = (n + 999) / 1000 + 1 := by omega
      have h2 : 1000 * ((n + 999) / 1000) = n := by omega
      rw [h1, List.range_succ, List.map_append]
      simp [h, h2]
    · have h1 : (n + 1 + 999) / 1000 = (n + 999) / 1000 := by omega
      rw [h1]
      simp [h]

/-- `chunked` in closed form: the `k`-th chunk is the slice at `1000 k`. -/
theorem chunked_eq_map (l : List Char) :
    chunked l =
      (List.range ((l.length + 999) / 1000)).map (fun k => slice1000 l (1000 * k)) := by
  unfold chunked
  rw [rangeStep_eq, List.map_map]
  rfl

/-- The number of chunks is `⌈length / 1000⌉`. -/
theorem length_chunked (l : List Char) :
    (chunked l).length = (l.length + 999) / 1000 := by
  rw [chunked_eq_map]
  simp

/-- The `k`-th chunk is the characters at positions `[1000k, 1000k+1000)`. -/
theorem getD_chunked (l : List Char) (k : Nat) (h : k < (chunked l).length) :
    (chunked l).getD k [] = (l.drop (1000 * k)).take 1000 := by
  rw [chunked_eq_map] at h ⊢
  rw [List.getD_eq_getElem _ _ h, List.getElem_map, List.getElem_range]
  rfl

/-- Concatenating the closed-form chunk list reconstructs the input. -/
theorem flatten_chunkExpr :
    ∀ (m : Nat) (l : List Char), (l.length + 999) / 1000 = m →
      ((List.range m).map (fun k => slice1000 l (1000 * k))).flatten = l := by
  intro m
  induction m with
  | zero =>
    intro l h
    have hl : l.length = 0 := by omega
    have : l = [] := List.length_eq_zero.mp hl
    subst this
    rfl
  | succ n ih =>
    intro l h
    rw [List.range_succ_eq_map, List.map_cons, List.map_map, List.flatten_cons]
    have htail : ((fun k => slice1000 l (1000 * k)) ∘ Nat.succ) =
        fun k => slice1000 (l.drop 1000) (1000 * k) := by
      funext k
      show slice1000 l (1000 * (k + 1)) = slice1000 (l.drop 1000) (1000 * k)
      unfold slice1000
      rw [List.drop_drop]
      congr 2
      omega
    rw [htail, ih (l.drop 1000) (by simp; omega)]
    show (l.drop (1000 * 0)).take 1000 ++ l.drop 1000 = l
    rw [Nat.mul_zero, List.drop_zero, List.take_append_drop]

/-- Concatenating the chunks in order reconstructs the input exactly. -/
theorem flatten_chunked (l : List Char) : (chunked l).flatten = l := by
  rw [chunked_eq_map]
  exact flatten_chunkExpr _ l rfl

/-- Every chunk is non-empty and at most 1000 characters long. -/
theorem mem_chunked (l : List Char) (c : List Char) (h : c ∈ chunked l) :
    c ≠ [] ∧ c.length ≤ 1000 := by
  unfold chunked at h
  obtain ⟨i, hi, rfl⟩ := List.mem_map.mp h
  obtain ⟨hir, _⟩ := List.mem_filter.mp hi
  have hlt : i < l.length := List.mem_range.mp hir
  have hlen : (slice1000 l i).length = min 1000 (l.length - i) := by
    unfold slice1000
    simp
  constructor
  · intro hnil
    rw [hnil] at hlen
    simp at hlen
    omega
  · rw [hlen]
    omega

/-- A non-empty input yields at least one chunk. -/
theorem chunked_ne_nil (l : List Char) (h : l ≠ []) : chunked l ≠ [] := by
  intro hc
  have h1 : (chunked l).length = 0 := by rw [hc]; rfl
  rw [length_chunked] at h1
  have h2 : 0 < l.length := List.length_pos.mpr h
  omega

/-! ### Strip, word-count and line-count lemmas -/

/-- Stripping yields the empty string exactly when every character is
whitespace (in particular for the empty string). -/
theorem pyStrip_eq_nil_iff (l : List Char) :
    pyStrip l = [] ↔ ∀ c ∈ l, pyIsSpace c := by
  unfold pyStrip
  rw [List.reverse_eq_nil_iff, List.dropWhile_eq_nil_iff]
  constructor
  · intro h c hc
    by_cases hc2 : c ∈ l.dropWhile pyIsSpace
    · exact h c (List.mem_reverse.mpr hc2)
    · have hsplit := List.takeWhile_append_dropWhile (p := pyIsSpace) (l := l)
      rw [← hsplit] at hc
      rcases List.mem_append.mp hc with htk | hdp
      · exact List.mem_takeWhile_imp htk
      · exact absurd hdp hc2
  · intro h c hc
    rw [List.mem_reverse] at hc
    exact h c ((List.dropWhile_sublist pyIsSpace).subset hc)

/-- An input that strips to empty is counted by `wordsAux` according to
`countRuns`. -/
theorem wordsAux_length :
    ∀ (l : List Char) (acc : List Char),
      (wordsAux l acc).length =
        if acc = [] then countRuns l true else 1 + countRuns l false := by
  intro l
  induction l with
  | nil =>
    intro acc
    by_cases h : acc = [] <;> simp [wordsAux, countRuns, h]
  | cons c cs ih =>
    intro acc
    by_cases hsp : pyIsSpace c
    · by_cases h : acc = []
      · simp [wordsAux, countRuns, h, hsp, ih []]
      · simp [wordsAux, countRuns, h, hsp, ih []]
        omega
    · by_cases h : acc = []
      · subst h
        simp [wordsAux, countRuns, hsp, ih [c]]
      · simp [wordsAux, countRuns, h, hsp, ih (c :: acc)]

/-- `content.split()` produces exactly the number of maximal
whitespace-delimited non-empty tokens. -/
theorem pySplit_length (l : List Char) :
    (pySplit l).length = maximalTokenCount l := by
  unfold pySplit maximalTokenCount
  simpa using wordsAux_length l []

/-- A string containing a non-whitespace character has at least one
token. -/
theorem countRuns_pos :
    ∀ l : List Char, (∃ c ∈ l, pyIsSpace c = false) → 1 ≤ countRuns l true := by
  intro l
  induction l with
  | nil => rintro ⟨c, hc, _⟩; cases hc
  | cons c cs ih =>
    rintro ⟨c0, hc0, h0⟩
    by_cases hsp : pyIsSpace c
    · have hc0' : c0 ∈ cs := by
        rcases List.mem_cons.mp hc0 with rfl | h
        · rw [hsp] at h0; cases h0
        · exact h
      have := ih ⟨c0, hc0', h0⟩
      simp [countRuns, hsp]
      omega
    · simp [countRuns, hsp]

/-- `pySplitNl` never returns the empty list. -/
theorem pySplitNl_ne_nil : ∀ l : List Char, pySplitNl l ≠ [] := by
  intro l
  cases l with
  | nil => simp [pySplitNl]
  | cons c cs =>
    by_cases h : c = '\n' <;> simp [pySplitNl, h]

/-- The number of newline-separated segments is the newline count plus
one. -/
theorem length_pySplitNl (l : List Char) :
    (pySplitNl l).length = l.count '\n' + 1 := by
  induction l with
  | nil => rfl
  | cons c cs ih =>
    have hne := pySplitNl_ne_nil cs
    have hpos : 1 ≤ (pySplitNl cs).length := List.length_pos.mpr hne
    by_cases h : c = '\n'
    · simp [pySplitNl, h, List.count_cons, ih]
    · simp [pySplitNl, h, List.count_cons, List.length_tail, ih]

/-! ### Summarization-sequencing lemmas -/

/-- A successful run of the summarization comprehension relates each
chunk to its summary, in order. -/
theorem summarizeChunks_ok_forall₂ (summ : Summarizer) :
    ∀ (cs : List (List Char)) (ss : List (List Char)),
      summarizeChunks summ cs = Except.ok ss →
      List.Forall₂ (fun c s => summ c 130 30 false = Except.ok s) cs ss := by
  intro cs
  induction cs with
  | nil =>
    intro ss h
    simp [summarizeChunks] at h
    subst h
    exact List.Forall₂.nil
  | cons c cs ih =>
    intro ss h
    unfold summarizeChunks at h
    cases hc : summ c 130 30 false with
    | error e => rw [hc] at h; cases h
    | ok s =>
      rw [hc] at h
      cases hrec : summarizeChunks summ cs with
      | error e => rw [hrec] at h; cases h
      | ok ss2 =>
        rw [hrec] at h
        simp at h
        subst h
        exact List.Forall₂.cons hc (ih ss2 hrec)

/-- If every chunk summarization succeeds, the whole comprehension
succeeds. -/
theorem summarizeChunks_ok_of_forall (summ : Summarizer) :
    ∀ cs : List (List Char),
      (∀ c ∈ cs, ∃ s, summ c 130 30 false = Except.ok s) →
      ∃ ss, summarizeChunks summ cs = Except.ok ss := by
  intro cs
  induction cs with
  | nil => intro _; exact ⟨[], rfl⟩
  | cons c cs ih =>
    intro h
    obtain ⟨s, hs⟩ := h c (List.mem_cons_self c cs)
    obtain ⟨ss, hss⟩ := ih (fun c' hc' => h c' (List.mem_cons_of_mem c hc'))
    exact ⟨s :: ss, by simp [summarizeChunks, hs, hss]⟩

/-- If some chunk summarization fails, the whole comprehension fails with
the error raised by a failing chunk. -/
theorem summarizeChunks_error_exists (summ : Summarizer) :
    ∀ cs : List (List Char),
      (∃ c ∈ cs, ∃ e, summ c 130 30 false = Except.error e) →
      ∃ e, summarizeChunks summ cs = Except.error e ∧
        ∃ c ∈ cs, summ c 130 30 false = Except.error e := by
  intro cs
  induction cs with
  | nil => rintro ⟨c, hc, _⟩; cases hc
  | cons c cs ih =>
    rintro ⟨c0, hc0, e0, he0⟩
    cases hc : summ c 130 30 false with
    | error e =>
      exact ⟨e, by simp [summarizeChunks, hc], c, List.mem_cons_self c cs, hc⟩
    | ok s =>
      have hc0' : c0 ∈ cs := by
        rcases List.mem_cons.mp hc0 with rfl | h
        · rw [hc] at he0; cases he0
        · exact h
      obtain ⟨e, he, c1, hc1, he1⟩ := ih ⟨c0, hc0', e0, he0⟩
      refine ⟨e, ?_, c1, List.mem_cons_of_mem c hc1, he1⟩
      simp [summarizeChunks, hc, he]

/-- Left-projection of `Forall₂`: every chunk has a related summary. -/
theorem forall₂_mem_left {R : List Char → List Char → Prop} :
    ∀ {cs ss : List (List Char)}, List.Forall₂ R cs ss →
      ∀ c ∈ cs, ∃ s ∈ ss, R c s := by
  intro cs ss h
  induction h with
  | nil => intro c hc; cases hc
  | @cons a b l₁ l₂ hab _ ih =>
    intro c hc
    rcases List.mem_cons.mp hc with rfl | h2
    · exact ⟨b, List.mem_cons_self b l₂, hab⟩
    · obtain ⟨s, hs, hRs⟩ := ih c h2
      exact ⟨s, List.mem_cons_of_mem b hs, hRs⟩

/-- Right-projection of `Forall₂`: every summary comes from a chunk. -/
theorem forall₂_mem_right {R : List Char → List Char → Prop} :
    ∀ {cs ss : List (List Char)}, List.Forall₂ R cs ss →
      ∀ s ∈ ss, ∃ c ∈ cs, R c s := by
  intro cs ss h
  induction h with
  | nil => intro s hs; cases hs
  | @cons a b l₁ l₂ hab _ ih =>
    intro s hs
    rcases List.mem_cons.mp hs with rfl | h2
    · exact ⟨a, List.mem_cons_self a l₁, hab⟩
    · obtain ⟨c, hc, hRc⟩ := ih s h2
      exact ⟨c, List.mem_cons_of_mem a hc, hRc⟩

/-! ### Handler-shape lemmas -/

/-- Inversion of a 200 response: the strip check passed, every chunk was
summarized, and the body is the joined summaries with the two counts. -/
theorem analyze_ok_inv (summ : Summarizer) (content : List Char) (body : OkBody)
    (h : analyze summ content = Response.ok body) :
    pyStrip content ≠ [] ∧
    ∃ ss, summarizeChunks summ (chunked content) = Except.ok ss ∧
      body = { summary := List.intercalate [' '] ss,
               word_count := (pySplit content).length,
               line_count := (pySplitNl content).length } := by
  unfold analyze at h
  split at h
  · cases h
  · refine ⟨by assumption, ?_⟩
    cases hres : summarizeChunks summ (chunked content) with
    | error e => rw [hres] at h; cases h
    | ok ss =>
      rw [hres] at h
      simp at h
      exact ⟨ss, rfl, h.symm⟩

/-- The forward direction: a passed strip check and successful
summarization produce exactly the 200 body. -/
theorem analyze_ok_forward (summ : Summarizer) (content : List Char)
    (ss : List (List Char)) (h1 : pyStrip content ≠ [])
    (h2 : summarizeChunks summ (chunked content) = Except.ok ss) :
    analyze summ content =
      Response.ok { summary := List.intercalate [' '] ss,
                    word_count := (pySplit content).length,
                    line_count := (pySplitNl content).length } := by
  unfold analyze
  simp [h1, h2]

/-- Joining with a single space never produces the empty string when the
list is non-empty and each summary is non-empty. -/
theorem intercalate_space_ne_nil :
    ∀ ss : List (List Char), ss ≠ [] → (∀ s ∈ ss, s ≠ []) →
      List.intercalate [' '] ss ≠ [] := by
  intro ss h0 h1
  cases ss with
  | nil => exact absurd rfl h0
  | cons x t =>
    cases t with
    | nil =>
      simp [List.intercalate]
      exact h1 x (List.mem_cons_self x [])
    | cons y u =>
      simp [List.intercalate, List.intersperse]

/-! ### Claim theorems -/

/-- C1: the handler partitions `content` into exactly `⌈L/1000⌉` chunks,
chunk `k` is the characters at positions `[1000k, 1000k+1000)` (the final
chunk may be shorter), and concatenating the chunks in order reconstructs
`content` exactly.  (`chunked content` is exactly the chunk list built on
line 21 of `analyze`.) -/
theorem chunk_partition (l : List Char) :
    (chunked l).length = (l.length + 999) / 1000 ∧
    (chunked l).flatten = l ∧
    ∀ k, k < (chunked l).length →
      (chunked l).getD k [] = (l.drop (1000 * k)).take 1000 :=
  ⟨length_chunked l, flatten_chunked l, fun k hk => getD_chunked l k hk⟩

/-- Witness for C1 at the two-character input "ab". -/
theorem chunk_partition_witness :
    (chunked ("ab".data)).length = (("ab".data).length + 999) / 1000 ∧
    (chunked ("ab".data)).flatten = "ab".data ∧
    (chunked ("ab".data)).getD 0 [] = (("ab".data).drop (1000 * 0)).take 1000 := by
  obtain ⟨h1, h2, h3⟩ := chunk_partition ("ab".data)
  exact ⟨h1, h2, h3 0 (by decide)⟩

/-- C2: when `content` is absent (treated as the empty string) or is a
string consisting only of whitespace characters — regardless of length —
the handler returns HTTP 400 with body `error = "Empty content"`.  The
conclusion holds for every summarizer `summ`, so no summarization
invocation influences it, and the chunking line is never reached. -/
theorem empty_content_400 (summ : Summarizer) (v : Option JVal)
    (h : v = Option.none ∨
      ∃ s, v = Option.some (JVal.jstr s) ∧ ∀ c ∈ s, pyIsSpace c) :
    analyzeRequest summ v = Outcome.resp (Response.badRequest "Empty content") ∧
    (Response.badRequest "Empty content").status = 400 := by
  refine ⟨?_, rfl⟩
  rcases h with rfl | ⟨s, rfl, hs⟩
  · simp [analyzeRequest, analyze, pyStrip]
  · have hstrip : pyStrip s = [] := (pyStrip_eq_nil_iff s).mpr hs
    simp [analyzeRequest, analyze, hstrip]

/-- Witness for C2 at a whitespace-only content and an always-failing
summarizer (showing the summarizer is never consulted). -/
theorem empty_content_400_witness :
    analyzeRequest failSumm (Option.some (JVal.jstr ("  ".data))) =
      Outcome.resp (Response.badRequest "Empty content") ∧
    (Response.badRequest "Empty content").status = 400 :=
  empty_content_400 failSumm _ (Or.inr ⟨"  ".data, rfl, by decide⟩)

/-- C3: if summarization raises for any chunk, the handler returns HTTP
500 whose body carries an exception text raised on a chunk, and no 200
response (hence no partial summary) is returned. -/
theorem summarizer_failure_500 (summ : Summarizer) (content : List Char)
    (h1 : pyStrip content ≠ [])
    (h2 : ∃ c ∈ chunked content, ∃ e, summ c 130 30 false = Except.error e) :
    ∃ e, analyze summ content = Response.serverError e ∧
      (Response.serverError e).status = 500 ∧
      (∃ c ∈ chunked content, summ c 130 30 false = Except.error e) ∧
      ∀ body, analyze summ content ≠ Response.ok body := by
  obtain ⟨e, he, hc⟩ := summarizeChunks_error_exists summ (chunked content) h2
  have heq : analyze summ content = Response.serverError e := by
    unfold analyze
    simp [h1, he]
  exact ⟨e, heq, rfl, hc, fun body hcontra => by rw [heq] at hcontra; cases hcontra⟩

/-- Witness for C3 at content "x" and an always-raising summarizer. -/
theorem summarizer_failure_500_witness :
    ∃ e, analyze failSumm ("x".data) = Response.serverError e ∧
      (Response.serverError e).status = 500 ∧
      (∃ c ∈ chunked ("x".data), failSumm c 130 30 false = Except.error e) ∧
      ∀ body, analyze failSumm ("x".data) ≠ Response.ok body :=
  summarizer_failure_500 failSumm ("x".data) (by decide)
    ⟨"x".data, by decide, "boom", rfl⟩

/-- C4: on every 200 response, `word_count` is the number of maximal
whitespace-delimited non-empty tokens of the original content; in
particular it is 2 for "hello world" and 1 for "  a  ". -/
theorem word_count_correct :
    (∀ (summ : Summarizer) (content : List Char) (body : OkBody),
        analyze summ content = Response.ok body →
        body.word_count = maximalTokenCount content) ∧
    analyze okSumm ("hello world".data) =
      Response.ok { summary := "hello world".data, word_count := 2, line_count := 1 } ∧
    analyze okSumm ("  a  ".data) =
      Response.ok { summary := "  a  ".data, word_count := 1, line_count := 1 } := by
  refine ⟨?_, by decide, by decide⟩
  intro summ content body h
  obtain ⟨-, ss, -, rfl⟩ := analyze_ok_inv summ content body h
  exact pySplit_length content

/-- Witness for C4 at "hello world". -/
theorem word_count_correct_witness :
    OkBody.word_count
        { summary := "hello world".data, word_count := 2, line_count := 1 } =
      maximalTokenCount ("hello world".data) :=
  word_count_correct.1 okSumm ("hello world".data) _ word_count_correct.2.1

/-- C5: on every 200 response, `line_count` is the number of segments of
the original content split on the newline character, which is the newline
count plus one (so no newline gives 1 and a trailing newline counts one
extra empty segment); in particular 3 for "a\nb\nc", 1 for "a", 2 for
"a\n". -/
theorem line_count_correct :
    (∀ (summ : Summarizer) (content : List Char) (body : OkBody),
        analyze summ content = Response.ok body →
        body.line_count = (pySplitNl content).length ∧
        body.line_count = content.count '\n' + 1) ∧
    analyze okSumm ("a\nb\nc".data) =
      Response.ok { summary := "a\nb\nc".data, word_count := 3, line_count := 3 } ∧
    analyze okSumm ("a".data) =
      Response.ok { summary := "a".data, word_count := 1, line_count := 1 } ∧
    analyze okSumm ("a\n".data) =
      Response.ok { summary := "a\n".data, word_count := 1, line_count := 2 } := by
  refine ⟨?_, by decide, by decide, by decide⟩
  intro summ content body h
  obtain ⟨-, ss, -, rfl⟩ := analyze_ok_inv summ content body h
  exact ⟨rfl, length_pySplitNl content⟩

/-- Witness for C5 at "a\n". -/
theorem line_count_correct_witness :
    OkBody.line_count { summary := "a\n".data, word_count := 1, line_count := 2 } =
        (pySplitNl ("a\n".data)).length ∧
    OkBody.line_count { summary := "a\n".data, word_count := 1, line_count := 2 } =
        ("a\n".data).count '\n' + 1 :=
  line_count_correct.1 okSumm ("a\n".data) _ line_count_correct.2.2.2

/-- C6: on a 200 response the `summary` field is the per-chunk summaries
joined by a single ASCII space, there are as many summaries as chunks, and
the `k`-th summary is the (sequential) summarization of the `k`-th chunk. -/
theorem summary_join_order (summ : Summarizer) (content : List Char)
    (ss : List (List Char)) (h1 : pyStrip content ≠ [])
    (h2 : summarizeChunks summ (chunked content) = Except.ok ss) :
    analyze summ content =
      Response.ok { summary := List.intercalate [' '] ss,
                    word_count := (pySplit content).length,
                    line_count := (pySplitNl content).length } ∧
    ss.length = (chunked content).length ∧
    ∀ k, k < (chunked content).length →
      summ ((chunked content).getD k []) 130 30 false = Except.ok (ss.getD k []) := by
  have hf := summarizeChunks_ok_forall₂ summ (chunked content) ss h2
  have hlen := hf.length_eq
  refine ⟨analyze_ok_forward summ content ss h1 h2, hlen.symm, ?_⟩
  intro k hk
  obtain ⟨-, hget⟩ := List.forall₂_iff_get.mp hf
  have hk2 : k < ss.length := by omega
  have hrel := hget k hk hk2
  rw [List.getD_eq_getElem _ _ hk, List.getD_eq_getElem _ _ hk2]
  simpa [List.get_eq_getElem] using hrel

/-- Witness for C6 at "ab" and the echoing summarizer. -/
theorem summary_join_order_witness :
    analyze okSumm ("ab".data) =
      Response.ok { summary := List.intercalate [' '] ["ab".data],
                    word_count := (pySplit ("ab".data)).length,
                    line_count := (pySplitNl ("ab".data)).length } ∧
    (["ab".data] : List (List Char)).length = (chunked ("ab".data)).length ∧
    okSumm ((chunked ("ab".data)).getD 0 []) 130 30 false =
      Except.ok ((["ab".data] : List (List Char)).getD 0 []) := by
  obtain ⟨ha, hb, hc⟩ :=
    summary_join_order okSumm ("ab".data) ["ab".data] (by decide) (by rfl)
  exact ⟨ha, hb, hc 0 (by decide)⟩

/-- C7 counterexample: a summarizer that succeeds on the only chunk of
content "x" but returns the empty string makes the handler return 200
with an empty `summary`, refuting "the summary field is non-empty" for
arbitrary successful summarizations. -/
theorem empty_summary_counterexample :
    chunked ("x".data) = ["x".data] ∧
    emptySumm ("x".data) 130 30 false = Except.ok [] ∧
    analyze emptySumm ("x".data) =
      Response.ok { summary := [], word_count := 1, line_count := 1 } :=
  ⟨by decide, rfl, by decide⟩

/-- C7 (amended): for all non-empty non-whitespace content, when every
chunk summarization succeeds the handler returns HTTP 200 with all three
fields, and the summary is non-empty provided every per-chunk summary
returned is non-empty (as the configured `min_length=30` intends). -/
theorem success_response (summ : Summarizer) (content : List Char)
    (h1 : pyStrip content ≠ [])
    (h2 : ∀ c ∈ chunked content, ∃ s, summ c 130 30 false = Except.ok s) :
    ∃ body, analyze summ content = Response.ok body ∧
      (Response.ok body).status = 200 ∧
      ((∀ c ∈ chunked content, ∀ s, summ c 130 30 false = Except.ok s → s ≠ []) →
        body.summary ≠ []) := by
  obtain ⟨ss, hss⟩ := summarizeChunks_ok_of_forall summ (chunked content) h2
  refine ⟨_, analyze_ok_forward summ content ss h1 hss, rfl, ?_⟩
  intro hne
  show List.intercalate [' '] ss ≠ []
  have hcontent : content ≠ [] := by
    intro hc
    subst hc
    exact h1 rfl
  have hchunks : chunked content ≠ [] := chunked_ne_nil content hcontent
  have hf := summarizeChunks_ok_forall₂ summ (chunked content) ss hss
  have hssne : ss ≠ [] := by
    intro h0
    subst h0
    have hlen := hf.length_eq
    simp at hlen
    exact hchunks hlen
  apply intercalate_space_ne_nil ss hssne
  intro s hs
  obtain ⟨c, hc, hcs⟩ := forall₂_mem_right hf s hs
  exact hne c hc s hcs

/-- Witness for the amended C7 at "x" and the echoing summarizer. -/
theorem success_response_witness :
    ∃ body, analyze okSumm ("x".data) = Response.ok body ∧
      (Response.ok body).status = 200 ∧
      ((∀ c ∈ chunked ("x".data), ∀ s, okSumm c 130 30 false = Except.ok s → s ≠ []) →
        body.summary ≠ []) :=
  success_response okSumm ("x".data) (by decide) (fun c _ => ⟨c, rfl⟩)

/-- C8: the handler is a deterministic, stateless function of its input:
in any sequence of served requests, the response to a request with content
`c` is `analyze summ c`, independently of all previously served requests —
so two invocations with identical content yield identical responses. -/
theorem idempotent_stateless (summ : Summarizer) (pre₁ pre₂ : List (List Char))
    (c : List Char) :
    (serve summ (pre₁ ++ [c])).getLast? = some (analyze summ c) ∧
    (serve summ (pre₁ ++ [c])).getLast? = (serve summ (pre₂ ++ [c])).getLast? := by
  constructor <;> simp [serve]

/-- C9: a present but non-string `content` raises before the `try` block
(`content.strip()` is only defined on strings), so the request fails with
an unhandled exception, which is neither the 400 nor the 500 JSON error
body. -/
theorem nonstring_content_unhandled (summ : Summarizer) (v : JVal)
    (h : ∀ s, v ≠ JVal.jstr s) :
    analyzeRequest summ (Option.some v) = Outcome.unhandled "AttributeError" ∧
    ∀ r, Outcome.unhandled "AttributeError" ≠ Outcome.resp r := by
  constructor
  · cases v with
    | jstr s => exact absurd rfl (h s)
    | jnum n => rfl
    | jbool b => rfl
    | jnull => rfl
    | jarr n => rfl
  · intro r hcontra
    cases hcontra

/-- Witness for C9 at a numeric `content`. -/
theorem nonstring_content_unhandled_witness :
    analyzeRequest failSumm (Option.some (JVal.jnum 0)) =
      Outcome.unhandled "AttributeError" ∧
    ∀ r, Outcome.unhandled "AttributeError" ≠ Outcome.resp r :=
  nonstring_content_unhandled failSumm (JVal.jnum 0) (fun _ hs => JVal.noConfusion hs)

/-- C10: every 200 response has `word_count ≥ 1` and `line_count ≥ 1`,
and the summarizer was invoked successfully on at least one non-empty
chunk of at most 1000 characters. -/
theorem success_invariants (summ : Summarizer) (content : List Char) (body : OkBody)
    (h : analyze summ content = Response.ok body) :
    1 ≤ body.word_count ∧ 1 ≤ body.line_count ∧
    ∃ c ∈ chunked content, c ≠ [] ∧ c.length ≤ 1000 ∧
      ∃ s, summ c 130 30 false = Except.ok s := by
  obtain ⟨hstrip, ss, hss, rfl⟩ := analyze_ok_inv summ content body h
  refine ⟨?_, ?_, ?_⟩
  · show 1 ≤ (pySplit content).length
    rw [pySplit_length]
    have hex : ∃ c ∈ content, pyIsSpace c = false := by
      by_contra hno
      push_neg at hno
      apply hstrip
      rw [pyStrip_eq_nil_iff]
      intro c hc
      simpa using hno c hc
    exact countRuns_pos content hex
  · show 1 ≤ (pySplitNl content).length
    rw [length_pySplitNl]
    omega
  · have hcontent : content ≠ [] := by
      intro hc
      subst hc
      exact hstrip rfl
    have hchunks : chunked content ≠ [] := chunked_ne_nil content hcontent
    obtain ⟨c0, hc0⟩ := List.exists_mem_of_ne_nil (chunked content) hchunks
    obtain ⟨hne, hlen⟩ := mem_chunked content c0 hc0
    have hf := summarizeChunks_ok_forall₂ summ (chunked content) ss hss
    obtain ⟨s, -, hcs⟩ := forall₂_mem_left hf c0 hc0
    exact ⟨c0, hc0, hne, hlen, s, hcs⟩

/-- Witness for C10 at "hello world" and the echoing summarizer. -/
theorem success_invariants_witness :
    1 ≤ OkBody.word_count
        { summary := "hello world".data, word_count := 2, line_count := 1 } ∧
    1 ≤ OkBody.line_count
        { summary := "hello world".data, word_count := 2, line_count := 1 } ∧
    ∃ c ∈ chunked ("hello world".data), c ≠ [] ∧ c.length ≤ 1000 ∧
      ∃ s, okSumm c 130 30 false = Except.ok s :=
  success_invariants okSumm ("hello world".data)
    { summary := "hello world".data, word_count := 2, line_count := 1 } (by decide)

example : pySplit ("hello world".data) = ["hello".data, "world".data] := by decide
example : pySplit ("  a  ".data) = [['a']] := by decide
example : (pySplitNl ("a\nb\nc".data)).length = 3 := by decide
example : (pySplitNl ("a\n".data)).length = 2 := by decide
example : chunked ("ab".data) = ["ab".data] := by decide
example : analyze okSumm ("hello world".data) =
    Response.ok { summary := "hello world".data, word_count := 2, line_count := 1 } := by decide
example : analyze okSumm ("   ".data) = Response.badRequest "Empty content" := by rfl
example : analyze failSumm ("x".data) = Response.serverError "boom" := by rfl
example : maximalTokenCount ("hello world".data) = 2 := by decide

end Analyzer
